import Mathlib

/-!
Shallow embedding of `src/stock_analyzer.c` (the metric-derivation pipeline:
session clock, observation cache, metric engine, ranker, and the run-level
control flow of `main`), together with theorems settling the specification
claims about it.

Modelling conventions: C `double` values are embedded as `ℚ` (exact
arithmetic; division by zero follows the junk-value convention of Lean), C `int` as
`Int`, JSON optional fields as `Option`, and the fixed-size global cache
array as a `List` with the explicit `MAX_SYMBOLS` capacity bound of the
source.  Pointer strings become `String`; the `strncpy` truncation to 15
characters is `strncpy15`.
-/

namespace StockAnalyzer

/-- latestTrade object of a snapshot: field `t` (only its presence is ever
checked by the C code, so it is a `Bool`) and numeric field `p`. -/
structure LatestTrade where
  t : Bool
  p : Option ℚ
deriving DecidableEq

/-- minuteBar object of a snapshot: trade count `n` and volume `v`. -/
structure MinuteBar where
  n : Option Int
  v : Option Int
deriving DecidableEq

/-- dailyBar or prevDailyBar object of a snapshot: close price `c`. -/
structure DailyBar where
  c : Option ℚ
deriving DecidableEq

/-- one per-symbol snapshot record of the JSON payload. -/
structure Snapshot where
  latestTrade : Option LatestTrade
  minuteBar : Option MinuteBar
  dailyBar : Option DailyBar
  prevDailyBar : Option DailyBar
deriving DecidableEq

/-- the StockResult struct of the C source (lines 19-31). -/
structure StockResult where
  symbol : String
  price : ℚ
  day_close : ℚ
  percent : ℚ
  gradient_full : ℚ
  gradient_recent : ℚ
  gradient_change : ℚ
  volume : Int
  volume_change : Int
  trades : Int
  trades_change : Int
deriving DecidableEq

/-- the StockCache struct of the C source (lines 33-38): one observation
cache entry. -/
structure StockCache where
  symbol : String
  gradient_recent : ℚ
  volume : Int
  trades : Int
deriving DecidableEq

/-- MAX_SYMBOLS of the C source (line 9): capacity of the global cache
array. -/
def MAX_SYMBOLS : Nat := 15000

/-- model of `strncpy(dst, src, MAX_SYMBOL_LENGTH - 1)` followed by a NUL
terminator: the symbol is truncated to its first 15 characters. -/
def strncpy15 (s : String) : String := ⟨s.data.take 15⟩

/-- get_cached_values (C lines 163-176): linear scan for the first entry
with the given symbol; a miss yields the zero baseline (0.0, 0, 0). -/
def get_cached_values : List StockCache → String → ℚ × Int × Int
  | [], _ => (0, 0, 0)
  | e :: rest, s =>
    if e.symbol = s then (e.gradient_recent, e.volume, e.trades)
    else get_cached_values rest s

/-- the scan-and-overwrite loop of update_cache (C lines 144-151): update
the first entry whose symbol matches, `none` when no entry matches. -/
def update_entry : List StockCache → String → ℚ → Int → Int → Option (List StockCache)
  | [], _, _, _, _ => none
  | e :: rest, s, g, v, t =>
    if e.symbol = s then
      some ({ e with gradient_recent := g, volume := v, trades := t } :: rest)
    else
      match update_entry rest s g v t with
      | none => none
      | some rest2 => some (e :: rest2)

/-- update_cache (C lines 143-161): overwrite the matching entry, or append
a new entry only while the cache holds fewer than MAX_SYMBOLS entries. -/
def update_cache (cache : List StockCache) (s : String) (g : ℚ) (v t : Int) :
    List StockCache :=
  match update_entry cache s g v t with
  | some cache2 => cache2
  | none =>
    if cache.length < MAX_SYMBOLS then
      cache ++ [{ symbol := strncpy15 s, gradient_recent := g, volume := v, trades := t }]
    else cache

/-- the reference-price selection of main (C lines 715-731): during
pre-market the current-day close, otherwise the previous-day bar close,
absent previous-day data yields `none` (skip). -/
def reference_price_of (s : Snapshot) (premarket : Bool) (day_close : ℚ) : Option ℚ :=
  if premarket then some day_close
  else
    match s.prevDailyBar with
    | none => none
    | some pdb => pdb.c

/-- the validation chain of the per-symbol loop of main (C lines 672-731), in
source order: latestTrade and minuteBar present, minute trade count present
and at least 50, latestTrade `t` and `p` present, dailyBar close present,
minuteBar volume present, reference price selectable.  On success returns
(minute_trades, price_now, day_close, minute_volume, reference_price). -/
def extract (s : Snapshot) (premarket : Bool) : Option (Int × ℚ × ℚ × Int × ℚ) :=
  match s.latestTrade, s.minuteBar with
  | some lt, some mb =>
    match mb.n with
    | none => none
    | some minute_trades =>
      if minute_trades < 50 then none
      else if !lt.t then none
      else
        match lt.p with
        | none => none
        | some price_now =>
          match s.dailyBar with
          | none => none
          | some db =>
            match db.c with
            | none => none
            | some day_close =>
              match mb.v with
              | none => none
              | some minute_volume =>
                match reference_price_of s premarket day_close with
                | none => none
                | some reference_price =>
                  some (minute_trades, price_now, day_close, minute_volume, reference_price)
  | _, _ => none

/-- the body of the per-symbol loop of main (C lines 668-759): a missing or
invalid snapshot skips the symbol leaving the cache untouched; otherwise the
metrics are derived, the deltas are taken against the pre-update cache value
and only then is the cache updated. -/
def process_symbol (snapshot : Option Snapshot) (premarket : Bool)
    (cache : List StockCache) (symbol : String) :
    Option StockResult × List StockCache :=
  match snapshot with
  | none => (none, cache)
  | some sn =>
    match extract sn premarket with
    | none => (none, cache)
    | some (minute_trades, price_now, day_close, minute_volume, reference_price) =>
      let percent := (price_now - reference_price) / reference_price * 100
      let gradient_full := percent / 2
      let gradient_recent := (price_now - day_close) / day_close * 100
      let prev := get_cached_values cache symbol
      (some { symbol := strncpy15 symbol
              price := price_now
              day_close := day_close
              percent := percent
              gradient_full := gradient_full
              gradient_recent := gradient_recent
              gradient_change := gradient_recent - prev.1
              volume := minute_volume
              volume_change := minute_volume - prev.2.1
              trades := minute_trades
              trades_change := minute_trades - prev.2.2 },
       update_cache cache symbol gradient_recent minute_volume minute_trades)

example :
    process_symbol (some ⟨some ⟨true, some 101⟩, some ⟨some 60, some 500⟩,
      some ⟨some 100⟩, none⟩) true [] "T" =
      (some { symbol := "T", price := 101, day_close := 100, percent := 1,
              gradient_full := 1/2, gradient_recent := 1, gradient_change := 1,
              volume := 500, volume_change := 500, trades := 60, trades_change := 60 },
       [{ symbol := "T", gradient_recent := 1, volume := 500, trades := 60 }]) := by
  simp only [process_symbol, extract, reference_price_of, get_cached_values,
    update_cache, update_entry, strncpy15, MAX_SYMBOLS]
  norm_num [StockResult.mk.injEq, StockCache.mk.injEq]

example :
    process_symbol (some ⟨some ⟨true, some 101⟩, some ⟨some 49, some 500⟩,
      some ⟨some 100⟩, none⟩) true [] "T" = (none, []) := by
  simp [process_symbol, extract]

/-- one value object of the cache file: the three numeric fields that
save_cache_to_file emits and init_cache_from_file looks up, each optional
in an arbitrary parsed document. -/
structure SavedFields where
  gradient_recent : Option ℚ
  volume : Option Int
  trades : Option Int
deriving DecidableEq

/-- a parsed cache-file document: a JSON object as an ordered list of
key-value pairs. -/
abbrev CacheFile := List (String × SavedFields)

/-- the upsert semantics of json_object_object_add used by save_cache_to_file:
replace the value at an existing key in place, else append. -/
def json_obj_add (obj : CacheFile) (k : String) (v : SavedFields) : CacheFile :=
  if obj.any (fun p => p.1 = k) then
    obj.map (fun p => if p.1 = k then (k, v) else p)
  else obj ++ [(k, v)]

/-- save_cache_to_file (C lines 119-141): build a JSON object holding, for
every cache entry in order, the three fields gradient_recent, volume and
trades under the symbol of the entry. -/
def save_cache_to_file (cache : List StockCache) : CacheFile :=
  cache.foldl
    (fun acc e =>
      json_obj_add acc e.symbol
        { gradient_recent := some e.gradient_recent,
          volume := some e.volume, trades := some e.trades }) []

/-- the entry loop of init_cache_from_file (C lines 89-114): scan the parsed
document while fewer than MAX_SYMBOLS entries are loaded, keeping exactly
the entries that carry all three fields, symbols truncated by strncpy. -/
def load_cache_entries : CacheFile → Nat → List StockCache
  | [], _ => []
  | (k, f) :: rest, cnt =>
    if cnt < MAX_SYMBOLS then
      match f.gradient_recent, f.volume, f.trades with
      | some g, some v, some t =>
        { symbol := strncpy15 k, gradient_recent := g, volume := v, trades := t } ::
          load_cache_entries rest (cnt + 1)
      | _, _, _ => load_cache_entries rest cnt
    else []

/-- init_cache_from_file (C lines 64-117) applied to an already-parsed
cache-file document, starting from the empty global cache. -/
def init_cache_from_file (file : CacheFile) : List StockCache :=
  load_cache_entries file 0

/-- is_premarket (C lines 58-62) on the Eastern wall-clock hour and
minute. -/
def is_premarket (hour minute : Nat) : Bool :=
  (4 ≤ hour && hour < 9) || (hour == 9 && minute < 30)

/-- the daylight-saving computation of main (C lines 617-630) on the UTC
month (0-based), day of month and weekday (0 = Sunday). -/
def compute_is_dst (mon mday wday : Nat) : Bool :=
  if 2 < mon && mon < 10 then true
  else if mon == 2 then
    decide (14 - (wday + 7 - mday % 7) % 7 ≤ mday)
  else if mon == 10 then
    decide (mday < 7 - (wday + 7 - mday % 7) % 7)
  else false

/-- the Eastern conversion of main (C lines 632-638): the number of hours
subtracted from UTC is 4 under daylight saving and 5 otherwise. -/
def eastern_offset (mon mday wday : Nat) : Nat :=
  if compute_is_dst mon mday wday then 4 else 5

/-- Modelled from the spec: the weekday (0 = Sunday) of day `d` of the same
month as a date with day-of-month `mday` falling on weekday `wday`. -/
def weekday_of (mday wday d : Nat) : Nat := (wday + 35 + d - mday) % 7

/-- Modelled from the spec: the unique Sunday among the seven days
`lo, ..., lo + 6` of the month (with `lo = 1` the first Sunday, with
`lo = 8` the second Sunday). -/
def sunday_from (mday wday lo : Nat) : Nat :=
  match (List.range 7).find? (fun k => weekday_of mday wday (lo + k) == 0) with
  | some k => lo + k
  | none => 0

/-- Modelled from the spec: daylight saving holds from the second Sunday of
March (month 2, 0-based) on, and strictly before the first Sunday of
November (month 10). -/
def is_dst_spec (mon mday wday : Nat) : Bool :=
  if mon < 2 then false
  else if mon == 2 then decide (sunday_from mday wday 8 ≤ mday)
  else if mon < 10 then true
  else if mon == 10 then decide (mday < sunday_from mday wday 1)
  else false

/-- json_object_object_get_ex on the parsed response object (C line 670):
first binding of the symbol, if any. -/
def lookup_snapshot (payload : List (String × Snapshot)) (s : String) : Option Snapshot :=
  match payload.find? (fun p => p.1 = s) with
  | some p => some p.2
  | none => none

/-- the per-symbol loop of main (C lines 668-759) over the whole universe,
threading the observation cache and collecting the emitted results in
order. -/
def process_all (payload : List (String × Snapshot)) (premarket : Bool) :
    List String → List StockCache → List StockResult × List StockCache
  | [], cache => ([], cache)
  | sym :: rest, cache =>
    match process_symbol (lookup_snapshot payload sym) premarket cache sym with
    | (r, cache2) =>
      match process_all payload premarket rest cache2 with
      | (rs, cache3) =>
        (match r with
         | some x => x :: rs
         | none => rs, cache3)

/-- observable outcome of one run, from the point the fetched payload is
parsed: process exit status, emitted result rows (in universe order, before
ranking), whether the report file is written, and the cache passed to
save_cache_to_file when the save is invoked. -/
structure RunOutcome where
  exitCode : Nat
  results : List StockResult
  reportWritten : Bool
  cacheSaved : Option (List StockCache)
deriving DecidableEq

/-- main from the parse of the fetched payload onward (C lines 655-800):
an unparseable payload aborts with exit status 1 before any processing;
otherwise the universe is processed, and only when at least one result was
emitted are the report written and the cache save invoked; the process then
exits with status 0. -/
def run_after_fetch (parsed : Option (List (String × Snapshot))) (premarket : Bool)
    (symbols : List String) (cache0 : List StockCache) : RunOutcome :=
  match parsed with
  | none => { exitCode := 1, results := [], reportWritten := false, cacheSaved := none }
  | some payload =>
    match process_all payload premarket symbols cache0 with
    | (rs, cacheF) =>
      if 0 < rs.length then
        { exitCode := 0, results := rs, reportWritten := true, cacheSaved := some cacheF }
      else
        { exitCode := 0, results := rs, reportWritten := false, cacheSaved := none }

/-- contents of the on-disk cache file after a run: rewritten only when the
run invoked save_cache_to_file, otherwise the previous contents remain. -/
def final_cache_file (oldFile : CacheFile) (o : RunOutcome) : CacheFile :=
  match o.cacheSaved with
  | none => oldFile
  | some c => save_cache_to_file c

/-- cmp_stocks_by_trades (C lines 257-259): the qsort comparator, the
trade-count difference taken in the order that yields a descending sort. -/
def cmp_stocks_by_trades (a b : StockResult) : Int := b.trades - a.trades

/-- the qsort contract for the ranking call of main (C line 767): the output is
a permutation of the input in which the comparator never orders a later
element strictly before an earlier one.  The C standard leaves the relative
order of elements comparing equal unspecified, so any list satisfying this
predicate is a permitted output. -/
def qsort_output_ok (input output : List StockResult) : Prop :=
  input.Perm output ∧ output.Pairwise (fun a b => cmp_stocks_by_trades a b ≤ 0)

lemma get_cached_values_of_not_mem (c : List StockCache) (s : String)
    (h : ∀ e ∈ c, e.symbol ≠ s) : get_cached_values c s = (0, 0, 0) := by
  induction c with
  | nil => rfl
  | cons e rest ih =>
    simp only [get_cached_values, if_neg (h e (List.mem_cons_self e rest))]
    exact ih fun e' he' => h e' (List.mem_cons_of_mem _ he')

lemma get_cached_values_append (c1 c2 : List StockCache) (s : String)
    (h : ∀ e ∈ c1, e.symbol ≠ s) :
    get_cached_values (c1 ++ c2) s = get_cached_values c2 s := by
  induction c1 with
  | nil => rfl
  | cons e rest ih =>
    simp only [List.cons_append, get_cached_values,
      if_neg (h e (List.mem_cons_self e rest))]
    exact ih fun e' he' => h e' (List.mem_cons_of_mem _ he')

lemma update_entry_of_not_mem (c : List StockCache) (s : String) (g : ℚ) (v t : Int)
    (h : ∀ e ∈ c, e.symbol ≠ s) : update_entry c s g v t = none := by
  induction c with
  | nil => rfl
  | cons e rest ih =>
    simp only [update_entry, if_neg (h e (List.mem_cons_self e rest))]
    rw [ih fun e' he' => h e' (List.mem_cons_of_mem _ he')]

lemma update_entry_none_not_mem (c : List StockCache) (s : String) (g : ℚ) (v t : Int)
    (h : update_entry c s g v t = none) : ∀ e ∈ c, e.symbol ≠ s := by
  induction c with
  | nil => intro e he; cases he
  | cons e rest ih =>
    intro e' he'
    by_cases hes : e.symbol = s
    · rw [update_entry, if_pos hes] at h; cases h
    · rw [update_entry, if_neg hes] at h
      rcases List.mem_cons.mp he' with rfl | hmem
      · exact hes
      · rcases hrec : update_entry rest s g v t with _ | rest2
        · exact ih hrec e' hmem
        · rw [hrec] at h; cases h

lemma update_entry_get (c : List StockCache) (s : String) (g : ℚ) (v t : Int)
    (c2 : List StockCache) (h : update_entry c s g v t = some c2) :
    get_cached_values c2 s = (g, v, t) := by
  induction c generalizing c2 with
  | nil => cases h
  | cons e rest ih =>
    by_cases hes : e.symbol = s
    · rw [update_entry, if_pos hes] at h
      cases h
      simp only [get_cached_values, if_pos hes]
    · rw [update_entry, if_neg hes] at h
      rcases hrec : update_entry rest s g v t with _ | rest2
      · rw [hrec] at h; cases h
      · rw [hrec] at h
        cases h
        simp only [get_cached_values, if_neg hes]
        exact ih rest2 hrec

lemma update_cache_of_not_mem_full (c : List StockCache) (s : String) (g : ℚ) (v t : Int)
    (h : ∀ e ∈ c, e.symbol ≠ s) (hl : ¬ c.length < MAX_SYMBOLS) :
    update_cache c s g v t = c := by
  rw [update_cache, update_entry_of_not_mem c s g v t h, if_neg hl]

lemma get_cached_values_update_cache (c : List StockCache) (s : String) (g : ℚ)
    (v t : Int) (hs : strncpy15 s = s)
    (h : (∃ e ∈ c, e.symbol = s) ∨ c.length < MAX_SYMBOLS) :
    get_cached_values (update_cache c s g v t) s = (g, v, t) := by
  rw [update_cache]
  rcases hu : update_entry c s g v t with _ | c2
  · have hnm : ∀ e ∈ c, e.symbol ≠ s := update_entry_none_not_mem c s g v t hu
    have hlen : c.length < MAX_SYMBOLS := by
      rcases h with ⟨e, he, hes⟩ | h
      · exact absurd hes (hnm e he)
      · exact h
    rw [if_pos hlen, get_cached_values_append _ _ _ hnm]
    simp [get_cached_values, hs]
  · exact update_entry_get c s g v t c2 hu

lemma extract_some_inv {snap : Snapshot} {pm : Bool} {n : Int} {p dc : ℚ} {v : Int}
    {rp : ℚ} (hx : extract snap pm = some (n, p, dc, v, rp)) :
    ∃ lt mb db, snap.latestTrade = some lt ∧ snap.minuteBar = some mb ∧
      snap.dailyBar = some db ∧ mb.n = some n ∧ ¬ n < 50 ∧ lt.t = true ∧
      lt.p = some p ∧ db.c = some dc ∧ mb.v = some v ∧
      reference_price_of snap pm dc = some rp := by
  obtain ⟨olt, omb, odb, opdb⟩ := snap
  cases olt with
  | none => simp [extract] at hx
  | some lt =>
  cases omb with
  | none => simp [extract] at hx
  | some mb =>
  obtain ⟨mbn, mbv⟩ := mb
  cases mbn with
  | none => simp [extract] at hx
  | some n0 =>
  by_cases h50 : n0 < 50
  · simp [extract, h50] at hx
  · cases hlt : lt.t with
    | false =>
      obtain ⟨ltt, ltp⟩ := lt
      cases hlt
      simp [extract, h50] at hx
    | true =>
      obtain ⟨ltt, ltp⟩ := lt
      cases hlt
      cases ltp with
      | none => simp [extract, h50] at hx
      | some p0 =>
      cases odb with
      | none => simp [extract, h50] at hx
      | some db =>
      obtain ⟨dbc⟩ := db
      cases dbc with
      | none => simp [extract, h50] at hx
      | some dc0 =>
      cases mbv with
      | none => simp [extract, h50] at hx
      | some v0 =>
      cases hrp : reference_price_of ⟨some ⟨true, some p0⟩, some ⟨some n0, some v0⟩,
          some ⟨some dc0⟩, opdb⟩ pm dc0 with
      | none => simp [extract, h50, hrp] at hx
      | some rp0 =>
        simp [extract, h50, hrp] at hx
        obtain ⟨rfl, rfl, rfl, rfl, rfl⟩ := hx
        exact ⟨_, _, _, rfl, rfl, rfl, rfl, h50, rfl, rfl, rfl, rfl, hrp⟩

lemma process_symbol_some_inv {snap : Snapshot} {pm : Bool} {cache : List StockCache}
    {s : String} {r : StockResult} {cache2 : List StockCache}
    (hp : process_symbol (some snap) pm cache s = (some r, cache2)) :
    ∃ n p dc v rp, extract snap pm = some (n, p, dc, v, rp) ∧
      r = { symbol := strncpy15 s, price := p, day_close := dc,
            percent := (p - rp) / rp * 100,
            gradient_full := (p - rp) / rp * 100 / 2,
            gradient_recent := (p - dc) / dc * 100,
            gradient_change := (p - dc) / dc * 100 - (get_cached_values cache s).1,
            volume := v, volume_change := v - (get_cached_values cache s).2.1,
            trades := n, trades_change := n - (get_cached_values cache s).2.2 } ∧
      cache2 = update_cache cache s ((p - dc) / dc * 100) v n := by
  rw [process_symbol] at hp
  rcases hx : extract snap pm with _ | ⟨n, p, dc, v, rp⟩
  · rw [hx] at hp; cases hp
  · rw [hx] at hp
    simp only [Prod.mk.injEq, Option.some.injEq] at hp
    exact ⟨n, p, dc, v, rp, rfl, hp.1.symm, hp.2.symm⟩

lemma process_symbol_of_extract_none {snap : Snapshot} {pm : Bool}
    {cache : List StockCache} {s : String} (hx : extract snap pm = none) :
    process_symbol (some snap) pm cache s = (none, cache) := by
  simp [process_symbol, hx]

lemma extract_low_n {snap : Snapshot} {pm : Bool} {mb : MinuteBar} {n : Int}
    (hmb : snap.minuteBar = some mb) (hn : mb.n = some n) (h50 : n < 50) :
    extract snap pm = none := by
  obtain ⟨olt, omb, odb, opdb⟩ := snap
  simp only [Snapshot.minuteBar] at hmb
  subst hmb
  cases olt with
  | none => simp [extract]
  | some lt => simp [extract, hn, h50]

lemma extract_none_of_ref_none {snap : Snapshot} {pm : Bool}
    (h : ∀ dc, reference_price_of snap pm dc = none) : extract snap pm = none := by
  obtain ⟨olt, omb, odb, opdb⟩ := snap
  cases olt with
  | none => simp [extract]
  | some lt =>
  cases omb with
  | none => simp [extract]
  | some mb =>
  obtain ⟨mbn, mbv⟩ := mb
  cases mbn with
  | none => simp [extract]
  | some n0 =>
  by_cases h50 : n0 < 50
  · simp [extract, h50]
  · obtain ⟨ltt, ltp⟩ := lt
    cases ltt with
    | false => simp [extract, h50]
    | true =>
      cases ltp with
      | none => simp [extract, h50]
      | some p0 =>
      cases odb with
      | none => simp [extract, h50]
      | some db =>
      obtain ⟨dbc⟩ := db
      cases dbc with
      | none => simp [extract, h50]
      | some dc0 =>
      cases mbv with
      | none => simp [extract, h50]
      | some v0 => simp [extract, h50, h dc0]

lemma extract_full (p dc pc : ℚ) (n v : Int) (pm : Bool) (h50 : ¬ n < 50) :
    extract ⟨some ⟨true, some p⟩, some ⟨some n, some v⟩, some ⟨some dc⟩,
        some ⟨some pc⟩⟩ pm =
      some (n, p, dc, v, if pm then dc else pc) := by
  cases pm with
  | true => simp [extract, reference_price_of, h50]
  | false => simp [extract, reference_price_of, h50]

lemma reference_price_of_regular_none {snap : Snapshot} {dc : ℚ}
    (h : snap.prevDailyBar = none ∨
      ∃ pdb, snap.prevDailyBar = some pdb ∧ pdb.c = none) :
    reference_price_of snap false dc = none := by
  rcases h with h | ⟨pdb, hp, hc⟩
  · simp [reference_price_of, h]
  · simp [reference_price_of, hp, hc]

lemma strncpy15_of_le (s : String) (h : s.length ≤ 15) : strncpy15 s = s := by
  obtain ⟨data⟩ := s
  show String.mk (data.take 15) = ⟨data⟩
  rw [List.take_of_length_le (by simpa [String.length] using h)]

lemma save_foldl_disjoint (c : List StockCache) (acc : CacheFile)
    (hd : ∀ q ∈ acc, ∀ e ∈ c, q.1 ≠ e.symbol)
    (hn : (c.map (fun e => e.symbol)).Nodup) :
    c.foldl
        (fun a e =>
          json_obj_add a e.symbol
            { gradient_recent := some e.gradient_recent,
              volume := some e.volume, trades := some e.trades }) acc =
      acc ++ c.map (fun e =>
        (e.symbol,
         { gradient_recent := some e.gradient_recent,
           volume := some e.volume, trades := some e.trades })) := by
  induction c generalizing acc with
  | nil => simp
  | cons e rest ih =>
    have hnotin : acc.any (fun q => q.1 = e.symbol) = false := by
      rw [List.any_eq_false]
      intro q hq
      simpa using hd q hq e (List.mem_cons_self e rest)
    have hmem : e.symbol ∉ rest.map (fun e => e.symbol) := by
      have := hn
      simp only [List.map_cons, List.nodup_cons] at this
      exact this.1
    have hd2 : ∀ q ∈ acc ++ [(e.symbol,
        ({ gradient_recent := some e.gradient_recent,
           volume := some e.volume, trades := some e.trades } : SavedFields))],
        ∀ e' ∈ rest, q.1 ≠ e'.symbol := by
      intro q hq e' he'
      rcases List.mem_append.mp hq with hq | hq
      · exact hd q hq e' (List.mem_cons_of_mem _ he')
      · simp only [List.mem_singleton] at hq
        subst hq
        intro hcontra
        have hcontra2 : e.symbol = e'.symbol := hcontra
        refine hmem ?_
        rw [hcontra2]
        exact List.mem_map_of_mem (fun e => e.symbol) he'
    have hn2 : (rest.map (fun e => e.symbol)).Nodup := by
      have := hn
      simp only [List.map_cons, List.nodup_cons] at this
      exact this.2
    have hstep : json_obj_add acc e.symbol
        { gradient_recent := some e.gradient_recent, volume := some e.volume,
          trades := some e.trades } =
        acc ++ [(e.symbol,
          { gradient_recent := some e.gradient_recent, volume := some e.volume,
            trades := some e.trades })] := by
      simp [json_obj_add, hnotin]
    simp only [List.foldl_cons]
    rw [hstep, ih _ hd2 hn2, List.append_assoc, List.singleton_append, List.map_cons]

lemma save_cache_eq_map (c : List StockCache)
    (hn : (c.map (fun e => e.symbol)).Nodup) :
    save_cache_to_file c =
      c.map (fun e =>
        (e.symbol,
         { gradient_recent := some e.gradient_recent,
           volume := some e.volume, trades := some e.trades })) := by
  simpa [save_cache_to_file] using save_foldl_disjoint c [] (by simp) hn

lemma load_map (c : List StockCache) (cnt : Nat)
    (hlen : cnt + c.length ≤ MAX_SYMBOLS)
    (hsym : ∀ e ∈ c, e.symbol.length ≤ 15) :
    load_cache_entries
        (c.map (fun e =>
          (e.symbol,
           { gradient_recent := some e.gradient_recent,
             volume := some e.volume, trades := some e.trades }))) cnt = c := by
  induction c generalizing cnt with
  | nil => rfl
  | cons e rest ih =>
    have hcnt : cnt < MAX_SYMBOLS := by
      simp only [List.length_cons] at hlen
      omega
    simp only [List.map_cons, load_cache_entries, if_pos hcnt]
    rw [strncpy15_of_le e.symbol (hsym e (List.mem_cons_self e rest))]
    have hrest : load_cache_entries
        (rest.map (fun e =>
          (e.symbol,
           { gradient_recent := some e.gradient_recent,
             volume := some e.volume, trades := some e.trades }))) (cnt + 1) = rest := by
      refine ih (cnt + 1) ?_ fun e' he' => hsym e' (List.mem_cons_of_mem _ he')
      simp only [List.length_cons] at hlen
      omega
    rw [hrest]

set_option maxHeartbeats 1000000 in
lemma dst_agrees : ∀ mon < 12, ∀ mday < 32, ∀ wday < 7,
    compute_is_dst mon mday wday = is_dst_spec mon mday wday := by decide

lemma premarket_window : ∀ h < 24, ∀ m < 60,
    (is_premarket h m = true ↔ 240 ≤ 60 * h + m ∧ 60 * h + m < 570) := by decide

/-- a snapshot that passes every validation step during pre-market:
latest trade present at price 101, minute bar with 60 trades and volume
1000, daily close 100. -/
def snap_c1 : Snapshot :=
  ⟨some ⟨true, some 101⟩, some ⟨some 60, some 1000⟩, some ⟨some 100⟩, none⟩

/-- an observation cache already holding MAX_SYMBOLS entries, none of them
for symbol A. -/
def full_cache : List StockCache :=
  List.replicate MAX_SYMBOLS { symbol := "X", gradient_recent := 0, volume := 0, trades := 0 }

lemma extract_snap_c1 : extract snap_c1 true = some (60, 101, 100, 1000, 100) := by
  norm_num [snap_c1, extract, reference_price_of]

/-- C1, as stated, is false at a full cache: the metric computation for the
fresh symbol A succeeds (a result row is emitted), yet no cache entry for A
is written, because update_cache silently drops a new symbol once the cache
already holds MAX_SYMBOLS entries — the overwrite is not unconditional. -/
theorem cache_capacity_drops_new_symbol :
    (process_symbol (some snap_c1) true full_cache "A").1.isSome = true ∧
    (process_symbol (some snap_c1) true full_cache "A").2 = full_cache ∧
    ∀ e ∈ full_cache, e.symbol ≠ "A" := by
  have hnm : ∀ e ∈ full_cache, e.symbol ≠ "A" := by
    intro e he
    rw [List.eq_of_mem_replicate he]
    decide
  have hlen : ¬ full_cache.length < MAX_SYMBOLS := by
    simp [full_cache]
  refine ⟨?_, ?_, hnm⟩
  · simp [process_symbol, extract_snap_c1]
  · simp only [process_symbol, extract_snap_c1]
    exact update_cache_of_not_mem_full _ _ _ _ _ hnm hlen

/-- C1 (amended): for every symbol whose metric computation succeeds, the
delta metrics of the emitted result are taken against the observation-cache
value before the update for this symbol (a miss giving the zero baseline), and the
returned cache is exactly the input cache passed through update_cache after
the deltas were computed; the entry for the symbol carries the new values
gradient_recent, minute_volume, minute_trades whenever the symbol was
already cached or the cache still has room for a new entry. -/
theorem delta_computed_before_cache_update
    (snap : Snapshot) (pm : Bool) (cache : List StockCache) (s : String)
    (r : StockResult) (cache2 : List StockCache)
    (hp : process_symbol (some snap) pm cache s = (some r, cache2)) :
    (r.gradient_change = r.gradient_recent - (get_cached_values cache s).1 ∧
     r.volume_change = r.volume - (get_cached_values cache s).2.1 ∧
     r.trades_change = r.trades - (get_cached_values cache s).2.2) ∧
    ((∀ e ∈ cache, e.symbol ≠ s) →
      r.gradient_change = r.gradient_recent ∧ r.volume_change = r.volume ∧
      r.trades_change = r.trades) ∧
    cache2 = update_cache cache s r.gradient_recent r.volume r.trades ∧
    (strncpy15 s = s →
      (∃ e ∈ cache, e.symbol = s) ∨ cache.length < MAX_SYMBOLS →
      get_cached_values cache2 s = (r.gradient_recent, r.volume, r.trades)) := by
  obtain ⟨n, p, dc, v, rp, hx, hr, hc⟩ := process_symbol_some_inv hp
  subst hr
  subst hc
  refine ⟨⟨rfl, rfl, rfl⟩, ?_, rfl, ?_⟩
  · intro hnm
    rw [get_cached_values_of_not_mem cache s hnm]
    simp
  · intro hs hcond
    exact get_cached_values_update_cache cache s _ _ _ hs hcond

/-- a one-entry cache holding a previous observation for symbol A. -/
def cache_c1 : List StockCache :=
  [{ symbol := "A", gradient_recent := 2, volume := 10, trades := 20 }]

/-- the result row emitted for snap_c1 against cache_c1. -/
def r_c1 : StockResult :=
  { symbol := "A", price := 101, day_close := 100, percent := 1,
    gradient_full := 1/2, gradient_recent := 1, gradient_change := -1,
    volume := 1000, volume_change := 990, trades := 60, trades_change := 40 }

/-- the cache after processing snap_c1 for symbol A. -/
def cache_c1' : List StockCache :=
  [{ symbol := "A", gradient_recent := 1, volume := 1000, trades := 60 }]

theorem delta_computed_before_cache_update_witness :
    (r_c1.gradient_change = r_c1.gradient_recent - (get_cached_values cache_c1 "A").1 ∧
     r_c1.volume_change = r_c1.volume - (get_cached_values cache_c1 "A").2.1 ∧
     r_c1.trades_change = r_c1.trades - (get_cached_values cache_c1 "A").2.2) ∧
    ((∀ e ∈ cache_c1, e.symbol ≠ "A") →
      r_c1.gradient_change = r_c1.gradient_recent ∧ r_c1.volume_change = r_c1.volume ∧
      r_c1.trades_change = r_c1.trades) ∧
    cache_c1' = update_cache cache_c1 "A" r_c1.gradient_recent r_c1.volume r_c1.trades ∧
    (strncpy15 "A" = "A" →
      (∃ e ∈ cache_c1, e.symbol = "A") ∨ cache_c1.length < MAX_SYMBOLS →
      get_cached_values cache_c1' "A" = (r_c1.gradient_recent, r_c1.volume, r_c1.trades)) :=
  delta_computed_before_cache_update snap_c1 true cache_c1 "A" r_c1 cache_c1' (by
    simp only [process_symbol, extract_snap_c1]
    norm_num [cache_c1, cache_c1', r_c1, get_cached_values, update_cache, update_entry,
      strncpy15, StockResult.mk.injEq, StockCache.mk.injEq])

/-- C2: during pre-market the reference price of every emitted result is the
current-day bar close; in a regular session it is the previous-day bar
close, and a snapshot without a previous-day close is skipped — no result is
emitted and the cache is returned unchanged. -/
theorem reference_price_selection :
    (∀ (snap : Snapshot) (cache : List StockCache) (s : String) (r : StockResult)
       (cache2 : List StockCache) (db : DailyBar) (dc : ℚ),
       snap.dailyBar = some db → db.c = some dc →
       process_symbol (some snap) true cache s = (some r, cache2) →
       r.percent = (r.price - dc) / dc * 100) ∧
    (∀ (snap : Snapshot) (cache : List StockCache) (s : String) (r : StockResult)
       (cache2 : List StockCache),
       process_symbol (some snap) false cache s = (some r, cache2) →
       ∃ pdb pc, snap.prevDailyBar = some pdb ∧ pdb.c = some pc ∧
         r.percent = (r.price - pc) / pc * 100) ∧
    (∀ (snap : Snapshot) (cache : List StockCache) (s : String),
       (snap.prevDailyBar = none ∨
        ∃ pdb, snap.prevDailyBar = some pdb ∧ pdb.c = none) →
       process_symbol (some snap) false cache s = (none, cache)) := by
  refine ⟨?_, ?_, ?_⟩
  · intro snap cache s r cache2 db dc hdb hdc hp
    obtain ⟨n, p, dc', v, rp, hx, hr, _⟩ := process_symbol_some_inv hp
    obtain ⟨lt, mb, db', _, _, hdb', _, _, _, _, hc', _, hrp⟩ := extract_some_inv hx
    rw [hdb] at hdb'
    obtain rfl : db = db' := by simpa using hdb'
    rw [hdc] at hc'
    obtain rfl : dc = dc' := by simpa using hc'
    rw [reference_price_of, if_pos rfl] at hrp
    obtain rfl : dc = rp := by simpa using hrp
    rw [hr]
  · intro snap cache s r cache2 hp
    obtain ⟨n, p, dc, v, rp, hx, hr, _⟩ := process_symbol_some_inv hp
    obtain ⟨lt, mb, db, _, _, _, _, _, _, _, _, _, hrp⟩ := extract_some_inv hx
    rw [reference_price_of] at hrp
    simp only [Bool.false_eq_true, if_false] at hrp
    rcases hpd : snap.prevDailyBar with _ | pdb
    · rw [hpd] at hrp; cases hrp
    · rw [hpd] at hrp
      exact ⟨pdb, rp, rfl, hrp, by rw [hr]⟩
  · intro snap cache s h
    exact process_symbol_of_extract_none
      (extract_none_of_ref_none fun dc => reference_price_of_regular_none h)

/-- a regular-session snapshot identical to snap_c1 except that the
previous-day bar is absent. -/
def snap_c2 : Snapshot :=
  ⟨some ⟨true, some 101⟩, some ⟨some 60, some 1000⟩, some ⟨some 100⟩, none⟩

/-- a pre-market snapshot with a previous-day bar present. -/
def snap_c2' : Snapshot :=
  ⟨some ⟨true, some 101⟩, some ⟨some 60, some 1000⟩, some ⟨some 100⟩, some ⟨some 50⟩⟩

/-- the result row emitted for snap_c2' during pre-market against the empty
cache. -/
def r_c2 : StockResult :=
  { symbol := "B", price := 101, day_close := 100, percent := 1,
    gradient_full := 1/2, gradient_recent := 1, gradient_change := 1,
    volume := 1000, volume_change := 1000, trades := 60, trades_change := 60 }

/-- the cache after processing snap_c2' for symbol B from the empty cache. -/
def cache_c2 : List StockCache :=
  [{ symbol := "B", gradient_recent := 1, volume := 1000, trades := 60 }]

lemma process_snap_c2' :
    process_symbol (some snap_c2') true [] "B" = (some r_c2, cache_c2) := by
  have hx : extract snap_c2' true = some (60, 101, 100, 1000, 100) := by
    norm_num [snap_c2', extract, reference_price_of]
  simp only [process_symbol, hx]
  norm_num [r_c2, cache_c2, get_cached_values, update_cache, update_entry,
    strncpy15, MAX_SYMBOLS, StockResult.mk.injEq, StockCache.mk.injEq]

theorem reference_price_selection_witness :
    r_c2.percent = (r_c2.price - 100) / 100 * 100 ∧
    process_symbol (some snap_c2) false [] "B" = (none, []) :=
  ⟨reference_price_selection.1 snap_c2' [] "B" r_c2 cache_c2 ⟨some 100⟩ 100 rfl rfl
      process_snap_c2',
   reference_price_selection.2.2 snap_c2 [] "B" (Or.inl rfl)⟩

/-- a result row with the given symbol and trade count, all other metrics
zero. -/
def mk_row (sym : String) (tr : Int) : StockResult :=
  { symbol := sym, price := 0, day_close := 0, percent := 0, gradient_full := 0,
    gradient_recent := 0, gradient_change := 0, volume := 0, volume_change := 0,
    trades := tr, trades_change := 0 }

/-- four result rows with trade counts 10, 50, 50, 5 in input order. -/
def rank_input : List StockResult :=
  [mk_row "A" 10, mk_row "B" 50, mk_row "C" 50, mk_row "D" 5]

/-- the output order the claim requires: the tied 50-trade rows keep input
order. -/
def rank_claimed : List StockResult :=
  [mk_row "B" 50, mk_row "C" 50, mk_row "A" 10, mk_row "D" 5]

/-- an output with the tied 50-trade rows swapped. -/
def rank_swapped : List StockResult :=
  [mk_row "C" 50, mk_row "B" 50, mk_row "A" 10, mk_row "D" 5]

/-- C3: the ranking call is C qsort with the trades-only comparator
cmp_stocks_by_trades, whose contract fixes only a descending order by
trades; on the input with trades 10, 50, 50, 5 the contract is satisfied
both by the claimed stable order and by the order with the two tied rows
swapped, so the code does not guarantee the stable tie order the claim
(and the spec) require. -/
theorem qsort_contract_allows_tie_reorder :
    qsort_output_ok rank_input rank_claimed ∧
    qsort_output_ok rank_input rank_swapped ∧
    rank_swapped ≠ rank_claimed := by
  refine ⟨⟨?_, ?_⟩, ⟨?_, ?_⟩, ?_⟩
  · exact (List.Perm.swap _ _ _).trans (List.Perm.cons _ (List.Perm.swap _ _ _))
  · simp [rank_claimed, cmp_stocks_by_trades, mk_row, List.pairwise_cons]
  · exact ((List.Perm.swap _ _ _).trans
      (List.Perm.cons _ (List.Perm.swap _ _ _))).trans (List.Perm.swap _ _ _)
  · simp [rank_swapped, cmp_stocks_by_trades, mk_row, List.pairwise_cons]
  · simp [rank_swapped, rank_claimed, mk_row, StockResult.mk.injEq]

/-- C4: when the whole snapshot payload fails to parse, the run exits with
status 1, emits no results, writes no report, never invokes the cache save,
and the on-disk cache file is left exactly as it was. -/
theorem parse_failure_aborts_run (pm : Bool) (symbols : List String)
    (cache0 : List StockCache) (oldFile : CacheFile) :
    run_after_fetch none pm symbols cache0 =
      { exitCode := 1, results := [], reportWritten := false, cacheSaved := none } ∧
    final_cache_file oldFile (run_after_fetch none pm symbols cache0) = oldFile :=
  ⟨rfl, rfl⟩

/-- C5: every emitted result satisfies the metric formulas — percent from
the selected reference price, gradient_full as half of percent,
gradient_recent from the day close — and the concrete pre-market example at
day close 100 and price 101 yields reference price 100, percent 1,
gradient_full one half and gradient_recent 1. -/
theorem metric_formula_correct :
    (∀ (snap : Snapshot) (pm : Bool) (cache : List StockCache) (s : String)
       (r : StockResult) (cache2 : List StockCache),
       process_symbol (some snap) pm cache s = (some r, cache2) →
       ∃ db rp, snap.dailyBar = some db ∧ db.c = some r.day_close ∧
         reference_price_of snap pm r.day_close = some rp ∧
         r.percent = (r.price - rp) / rp * 100 ∧
         r.gradient_full = r.percent / 2 ∧
         r.gradient_recent = (r.price - r.day_close) / r.day_close * 100) ∧
    (process_symbol (some snap_c2') true [] "B" = (some r_c2, cache_c2) ∧
     reference_price_of snap_c2' true 100 = some 100 ∧
     r_c2.price = 101 ∧ r_c2.day_close = 100 ∧ r_c2.percent = 1 ∧
     r_c2.gradient_full = 1 / 2 ∧ r_c2.gradient_recent = 1) := by
  constructor
  · intro snap pm cache s r cache2 hp
    obtain ⟨n, p, dc, v, rp, hx, hr, _⟩ := process_symbol_some_inv hp
    obtain ⟨lt, mb, db, _, _, hdb, _, _, _, _, hc, _, hrp⟩ := extract_some_inv hx
    subst hr
    exact ⟨db, rp, hdb, hc, hrp, rfl, rfl, rfl⟩
  · exact ⟨process_snap_c2', by norm_num [snap_c2', reference_price_of],
      rfl, rfl, rfl, rfl, rfl⟩

theorem metric_formula_correct_witness :
    ∃ db rp, snap_c2'.dailyBar = some db ∧ db.c = some r_c2.day_close ∧
      reference_price_of snap_c2' true r_c2.day_close = some rp ∧
      r_c2.percent = (r_c2.price - rp) / rp * 100 ∧
      r_c2.gradient_full = r_c2.percent / 2 ∧
      r_c2.gradient_recent = (r_c2.price - r_c2.day_close) / r_c2.day_close * 100 :=
  metric_formula_correct.1 snap_c2' true [] "B" r_c2 cache_c2 process_snap_c2'

/-- C6: a snapshot whose minute bar reports a trade count below 50 is
skipped with the cache untouched, whatever else the snapshot contains; and
on a snapshot carrying every required field a result is emitted exactly when
the minute trade count is at least 50, so 49 is excluded and 50 passes the
low-liquidity filter. -/
theorem low_liquidity_filter_boundary :
    (∀ (snap : Snapshot) (pm : Bool) (cache : List StockCache) (s : String)
       (mb : MinuteBar) (n : Int),
       snap.minuteBar = some mb → mb.n = some n → n < 50 →
       process_symbol (some snap) pm cache s = (none, cache)) ∧
    (∀ (p dc pc : ℚ) (n v : Int) (pm : Bool) (cache : List StockCache) (s : String),
       ((process_symbol (some ⟨some ⟨true, some p⟩, some ⟨some n, some v⟩,
           some ⟨some dc⟩, some ⟨some pc⟩⟩) pm cache s).1.isSome = true ↔ 50 ≤ n)) := by
  constructor
  · intro snap pm cache s mb n hmb hn h50
    exact process_symbol_of_extract_none (extract_low_n hmb hn h50)
  · intro p dc pc n v pm cache s
    constructor
    · intro hsome
      by_contra h50
      rw [process_symbol_of_extract_none
        (@extract_low_n _ pm ⟨some n, some v⟩ n rfl rfl (by omega))] at hsome
      simp at hsome
    · intro h50
      rw [process_symbol]
      rw [extract_full p dc pc n v pm (by omega)]
      rfl

theorem low_liquidity_filter_boundary_witness :
    process_symbol (some ⟨some ⟨true, some 101⟩, some ⟨some 49, some 1000⟩,
        some ⟨some 100⟩, some ⟨some 50⟩⟩) true [] "E" = (none, []) ∧
    ((process_symbol (some ⟨some ⟨true, some 101⟩, some ⟨some 50, some 1000⟩,
        some ⟨some 100⟩, some ⟨some 50⟩⟩) true [] "E").1.isSome = true) :=
  ⟨low_liquidity_filter_boundary.1 _ true [] "E" ⟨some 49, some 1000⟩ 49 rfl rfl
      (by norm_num),
   (low_liquidity_filter_boundary.2 101 100 50 50 1000 true [] "E").mpr (by norm_num)⟩

/-- C7: saving a cache and loading the file back reproduces the cache
entry for entry, hence saving the reloaded cache produces the same file
contents; the hypotheses are the representation invariants of the C cache —
at most MAX_SYMBOLS entries, one entry per symbol, symbols at most 15
characters. -/
theorem cache_save_load_roundtrip (c : List StockCache)
    (hlen : c.length ≤ MAX_SYMBOLS)
    (hn : (c.map (fun e => e.symbol)).Nodup)
    (hsym : ∀ e ∈ c, e.symbol.length ≤ 15) :
    init_cache_from_file (save_cache_to_file c) = c ∧
    save_cache_to_file (init_cache_from_file (save_cache_to_file c)) =
      save_cache_to_file c := by
  have h1 : init_cache_from_file (save_cache_to_file c) = c := by
    rw [save_cache_eq_map c hn, init_cache_from_file]
    exact load_map c 0 (by simpa using hlen) hsym
  exact ⟨h1, by rw [h1]⟩

/-- a two-entry cache with distinct short symbols and finite values. -/
def cache_c7 : List StockCache :=
  [{ symbol := "AAPL", gradient_recent := 3/2, volume := 100, trades := 60 },
   { symbol := "MSFT", gradient_recent := -1/2, volume := 5, trades := 51 }]

theorem cache_save_load_roundtrip_witness :
    init_cache_from_file (save_cache_to_file cache_c7) = cache_c7 ∧
    save_cache_to_file (init_cache_from_file (save_cache_to_file cache_c7)) =
      save_cache_to_file cache_c7 :=
  cache_save_load_roundtrip cache_c7 (by decide) (by decide) (by decide)

/-- C8: the session clock subtracts 4 hours exactly when the
month/day/weekday arithmetic places the UTC date on or after the second
Sunday of March and strictly before the first Sunday of November, 5 hours
otherwise, and the pre-market flag holds exactly when the Eastern wall
clock lies in the window from 04:00 inclusive to 09:30 exclusive. -/
theorem session_clock_dst_and_premarket
    (mon mday wday hour minute : Nat) (hmon : mon < 12) (hd1 : 1 ≤ mday)
    (hd2 : mday ≤ 31) (hw : wday < 7) (hh : hour < 24) (hm : minute < 60) :
    (eastern_offset mon mday wday = 4 ↔ is_dst_spec mon mday wday = true) ∧
    (eastern_offset mon mday wday = 5 ↔ is_dst_spec mon mday wday = false) ∧
    (is_premarket hour minute = true ↔
      240 ≤ 60 * hour + minute ∧ 60 * hour + minute < 570) := by
  have hdst := dst_agrees mon hmon mday (by omega) wday hw
  refine ⟨?_, ?_, premarket_window hour hh minute hm⟩
  · rw [eastern_offset, hdst]
    cases is_dst_spec mon mday wday <;> simp
  · rw [eastern_offset, hdst]
    cases is_dst_spec mon mday wday <;> simp

theorem session_clock_dst_and_premarket_witness :
    (eastern_offset 6 4 4 = 4 ↔ is_dst_spec 6 4 4 = true) ∧
    (eastern_offset 6 4 4 = 5 ↔ is_dst_spec 6 4 4 = false) ∧
    (is_premarket 5 0 = true ↔ 240 ≤ 60 * 5 + 0 ∧ 60 * 5 + 0 < 570) :=
  session_clock_dst_and_premarket 6 4 4 5 0 (by decide) (by decide) (by decide)
    (by decide) (by decide) (by decide)

/-- a pre-market snapshot that passes every validation step although its
current-day close is 0: latest trade at 101, 60 minute trades, volume
1000. -/
def snap_c9 : Snapshot :=
  ⟨some ⟨true, some 101⟩, some ⟨some 60, some 1000⟩, some ⟨some 0⟩, none⟩

/-- C9: the metric computation has no zero guard — any snapshot carrying
every required field is emitted whatever the numeric values of the day
close or reference price, and in particular the pre-market snapshot with
day close 0 produces a result whose percent and gradients are the division
expressions with divisor 0 (in IEEE doubles, non-finite values), which also
propagate into the updated cache entry; the formulas are meaningful only
under the hypothesis that both divisors are nonzero. -/
theorem no_zero_guard_in_metrics :
    (∀ (p dc pc : ℚ) (n v : Int) (pm : Bool) (cache : List StockCache) (s : String),
       50 ≤ n →
       ((process_symbol (some ⟨some ⟨true, some p⟩, some ⟨some n, some v⟩,
           some ⟨some dc⟩, some ⟨some pc⟩⟩) pm cache s).1.isSome = true)) ∧
    process_symbol (some snap_c9) true [] "Z" =
      (some { symbol := "Z", price := 101, day_close := 0,
              percent := (101 - 0) / 0 * 100,
              gradient_full := (101 - 0) / 0 * 100 / 2,
              gradient_recent := (101 - 0) / 0 * 100,
              gradient_change := (101 - 0) / 0 * 100,
              volume := 1000, volume_change := 1000,
              trades := 60, trades_change := 60 },
       [{ symbol := "Z", gradient_recent := (101 - 0) / 0 * 100,
          volume := 1000, trades := 60 }]) := by
  constructor
  · intro p dc pc n v pm cache s h50
    rw [process_symbol, extract_full p dc pc n v pm (by omega)]
    rfl
  · have hx : extract snap_c9 true = some (60, 101, 0, 1000, 0) := by
      norm_num [snap_c9, extract, reference_price_of]
    simp only [process_symbol, hx]
    norm_num [get_cached_values, update_cache, update_entry, strncpy15,
      MAX_SYMBOLS, StockResult.mk.injEq, StockCache.mk.injEq]

theorem no_zero_guard_in_metrics_witness :
    (process_symbol (some ⟨some ⟨true, some 101⟩, some ⟨some 60, some 1000⟩,
        some ⟨some 0⟩, some ⟨some 0⟩⟩) false [] "W").1.isSome = true :=
  no_zero_guard_in_metrics.1 101 0 0 60 1000 false [] "W" (by norm_num)

/-- C10: a run whose per-symbol loop emits zero results writes neither the
report nor the cache file — the on-disk cache of the previous run stays as
it is — and still exits with status 0. -/
theorem empty_run_writes_nothing (payload : List (String × Snapshot)) (pm : Bool)
    (symbols : List String) (cache0 : List StockCache) (oldFile : CacheFile)
    (h : (process_all payload pm symbols cache0).1 = []) :
    (run_after_fetch (some payload) pm symbols cache0).exitCode = 0 ∧
    (run_after_fetch (some payload) pm symbols cache0).reportWritten = false ∧
    (run_after_fetch (some payload) pm symbols cache0).cacheSaved = none ∧
    final_cache_file oldFile (run_after_fetch (some payload) pm symbols cache0) =
      oldFile := by
  rcases hpa : process_all payload pm symbols cache0 with ⟨rs, cacheF⟩
  rw [hpa] at h
  simp only at h
  subst h
  simp [run_after_fetch, hpa, final_cache_file]

/-- a one-entry on-disk cache file from a previous run. -/
def old_file_c10 : CacheFile :=
  [("K", { gradient_recent := some 1, volume := some 2, trades := some 3 })]

theorem empty_run_writes_nothing_witness :
    (run_after_fetch (some []) true ["A"] []).exitCode = 0 ∧
    (run_after_fetch (some []) true ["A"] []).reportWritten = false ∧
    (run_after_fetch (some []) true ["A"] []).cacheSaved = none ∧
    final_cache_file old_file_c10 (run_after_fetch (some []) true ["A"] []) =
      old_file_c10 :=
  empty_run_writes_nothing [] true ["A"] [] old_file_c10
    (by simp [process_all, process_symbol, lookup_snapshot])

end StockAnalyzer
